import Mathlib

/-!
Shallow embedding of `atomic_blobject` (src/src/lib.rs), a persistent,
crash-consistent single-value object cache backed by one file, with a
cross-process advisory lock collaborator (`fancy_flocks::DirtyFlock`).

Filesystem effects are modelled as a partial map from paths to file
contents.  The serializer (serde_json in the source) is an external
collaborator and is modelled as an abstract `Codec` (an encode/decode
pair); the lock collaborator is modelled by the `FlockState` it reports
per acquisition (`Clean`/`Dirty`) together with the possibility of an
acquisition failure.  Panics (`expect`) are modelled by the `Outcome.fatal`
constructor, distinct from recoverable `Except.error` results.
-/

/-- Paths, as Rust `Path` values after the only operation the source applies
to them, `Path::with_extension`: a stem plus an extension.  Rust never
reports an extension containing a dot (the extension is the part of the
file name after the last dot), which is the origin of the
`dotFree`-style hypotheses below. -/
structure FilePath where
  stem : String
  ext : String
deriving DecidableEq

/-- Rust `Path::with_extension`: replace the extension. -/
def FilePath.withExtension (p : FilePath) (e : String) : FilePath :=
  ⟨p.stem, e⟩

/-- The extension of a Rust path never contains a dot. -/
def FilePath.dotFree (p : FilePath) : Prop :=
  ¬ ('.' ∈ p.ext.data)

instance (p : FilePath) : Decidable p.dotFree := by
  unfold FilePath.dotFree; infer_instance

/-- The filesystem: a partial map from paths to file contents. -/
def FS : Type := FilePath → Option String

/-- Write (or remove, with `none`) the content stored at one path. -/
def FS.update (fs : FS) (p : FilePath) (c : Option String) : FS :=
  fun q => if q = p then c else fs q

/-- The effect of `std::fs::rename src dst`: `dst` now holds what `src`
held, `src` is gone. -/
def FS.rename (fs : FS) (src dst : FilePath) : FS :=
  fun q => if q = src then none else if q = dst then fs src else fs q

/-- The serializer collaborator (serde_json in the source): any
self-describing format able to round-trip the value type. -/
structure Codec (T : Type) where
  encode : T → String
  decode : String → Except String T

/-- The error taxonomy of the crate: the stage of a failing `ser_store`. -/
inductive Stage
  | createTmp
  | enc
  | flushStage
  | replace
deriving DecidableEq

/-- Errors returned (recoverably) by the crate. -/
inductive Err
  | decodeError
  | lockError
  | storeError (s : Stage)
deriving DecidableEq

/-- A computation that either produces a value or aborts the process
(a Rust panic via `expect`). -/
inductive Outcome (α : Type)
  | ok (a : α)
  | fatal (msg : String)
deriving DecidableEq

/-- Embedding of `ser_load` (lib.rs lines 173-193): `File::open` on a
missing file yields `None`; otherwise the content is decoded, a decode
failure yielding `Some(Err(..))` and success `Some(Ok(v))`.  Read-only:
it does not change the filesystem. -/
def ser_load {T : Type} (c : Codec T) (fs : FS) (p : FilePath) :
    Option (Except Err T) :=
  match fs p with
  | none => none
  | some content =>
    match c.decode content with
    | Except.ok v => some (Except.ok v)
    | Except.error _ => some (Except.error Err.decodeError)

/-- The temporary path of a `ser_store` call against target `p`, with
random suffix `hex`: `p.with_extension(format!("{:08x}.tmp", random))`. -/
def tmpPath (p : FilePath) (hex : String) : FilePath :=
  p.withExtension (hex ++ ".tmp")

/-- Embedding of `ser_store` (lib.rs lines 195-218).  `hex` stands for the
random 8-hex-digit suffix of the temporary path.  `fault` injects a
failure at one of the four stages (create temp, encode, flush, replace);
`frag` is whatever incomplete bytes the buffered writer may have pushed to
the temporary file before an encode or flush failure.  Returns the outcome
together with the resulting filesystem.  All writes before the final
rename touch only the temporary path. -/
def ser_store {T : Type} (c : Codec T) (fault : Option Stage) (frag : String)
    (hex : String) (fs : FS) (p : FilePath) (v : T) :
    Except Err Unit × FS :=
  let tmp := tmpPath p hex
  if fault = some Stage.createTmp then
    (Except.error (Err.storeError Stage.createTmp), fs)
  else
    let fs1 := fs.update tmp (some "")
    if fault = some Stage.enc then
      (Except.error (Err.storeError Stage.enc), fs1.update tmp (some frag))
    else if fault = some Stage.flushStage then
      (Except.error (Err.storeError Stage.flushStage),
       fs1.update tmp (some frag))
    else
      let fs2 := fs1.update tmp (some (c.encode v))
      if fault = some Stage.replace then
        (Except.error (Err.storeError Stage.replace), fs2)
      else
        (Except.ok (), fs2.rename tmp p)

theorem tmpPath_ne (p : FilePath) (hex : String) (hp : p.dotFree) :
    tmpPath p hex ≠ p := by
  intro h
  apply hp
  have hext : p.ext = hex ++ ".tmp" := (congrArg FilePath.ext h).symm
  rw [hext, String.data_append]
  refine List.mem_append.mpr (Or.inr ?_)
  decide

/-- The per-acquisition staleness signal reported by the lock collaborator
(`fancy_flocks::...::State`). -/
inductive FlockState
  | Clean
  | Dirty
deriving DecidableEq

/-- The result a lock acquisition hands back: either a guard reporting a
staleness state, or an OS-level lock error. -/
def LockRes : Type := Except Unit FlockState

/-- The `if flock.state() == State::Dirty` reload block shared verbatim by
`AtomBlob::get` (lib.rs lines 60-67) and `AtomBlob::get_mut` (lines 78-86):
on `Some(newval)` the statement `*val = newval?` first unwraps `newval`,
returning the error from the enclosing function (and leaving the cached
copy untouched) when it is an `Err`; on `None` the cached copy is set to
the default.  Returns (result, cached copy afterwards). -/
def dirtyReload {T : Type} (c : Codec T) (dflt : T) (fs : FS) (p : FilePath)
    (cached : T) : Except Err T × T :=
  match ser_load c fs p with
  | some (Except.ok v) => (Except.ok v, v)
  | some (Except.error e) => (Except.error e, cached)
  | none => (Except.ok dflt, dflt)

/-- Embedding of `AtomBlob::get` (lib.rs lines 58-74).  `lockRes` is what
`self.flock.lock_shared()` produces; its error is propagated with `?`.
Returns (result carrying the value the returned `BlobRef` dereferences to,
cached copy after the call, whether a reload from disk was performed). -/
def AtomBlob.get {T : Type} (c : Codec T) (dflt : T) (p : FilePath)
    (lockRes : LockRes) (fs : FS) (cached : T) :
    Except Err T × T × Bool :=
  match lockRes with
  | Except.error _ => (Except.error Err.lockError, cached, false)
  | Except.ok st =>
    if st = FlockState.Dirty then
      let (r, cached2) := dirtyReload c dflt fs p cached
      match r with
      | Except.ok _ => (Except.ok cached2, cached2, true)
      | Except.error e => (Except.error e, cached2, true)
    else
      (Except.ok cached, cached, false)

/-- Embedding of `AtomBlob::get_mut` (lib.rs lines 76-95).  The source
acquires the exclusive lock with `self.flock.lock_exclusive().expect("flock")`:
an acquisition failure panics (modelled by `Outcome.fatal "flock"`) instead
of being returned as an `Err`.  The dirty-reload block is identical to the
one in `get`, and its errors are returned recoverably through `?`. -/
def AtomBlob.get_mut {T : Type} (c : Codec T) (dflt : T) (p : FilePath)
    (lockRes : LockRes) (fs : FS) (cached : T) :
    Outcome (Except Err T × T × Bool) :=
  match lockRes with
  | Except.error _ => Outcome.fatal "flock"
  | Except.ok st =>
    Outcome.ok
      (if st = FlockState.Dirty then
        let (r, cached2) := dirtyReload c dflt fs p cached
        match r with
        | Except.ok _ => (Except.ok cached2, cached2, true)
        | Except.error e => (Except.error e, cached2, true)
      else
        (Except.ok cached, cached, false))

/-- Embedding of `AtomBlob::new` (lib.rs lines 36-56): load the backing
file if present (propagating a decode failure with `?`), else start from
the default.  Returns the initial cached copy together with the lock-file
path the constructed `DirtyFlock` session is opened against
(`p.with_extension("flock")`). -/
def AtomBlob.new {T : Type} (c : Codec T) (dflt : T) (fs : FS)
    (p : FilePath) : Except Err (T × FilePath) :=
  match ser_load c fs p with
  | some (Except.ok v) => Except.ok (v, p.withExtension "flock")
  | some (Except.error e) => Except.error e
  | none => Except.ok (dflt, p.withExtension "flock")

/-- The identity-relevant shape of an `AtomBlob` handle: `vId` identifies
the `Arc<RwLock<T>>` holding the cached copy, `pathId` the `Arc<PathBuf>`
holding the backing path, `sessionId` the `DirtyFlock` session, and
`flockPath` the lock-file path the session is opened against. -/
structure Blob where
  vId : Nat
  pathId : Nat
  sessionId : Nat
  flockPath : FilePath
deriving DecidableEq

/-- Embedding of `AtomBlob::clone` (lib.rs lines 97-103): `v.clone()` and
`path.clone()` are `Arc` clones (same shared object, hence same ids);
`DirtyFlock::new(self.flock.path())` opens a fresh session, with identity
`freshSession`, against the same lock-file path. -/
def Blob.clone (b : Blob) (freshSession : Nat) : Blob :=
  { vId := b.vId
    pathId := b.pathId
    sessionId := freshSession
    flockPath := b.flockPath }

/-- The process heap of cached copies, indexed by `Arc` identity. -/
def Heap (T : Type) : Type := Nat → T

/-- Read the cached copy a handle points at. -/
def Heap.readCached {T : Type} (h : Heap T) (b : Blob) : T := h b.vId

/-- Commit a mutation through a handle: the shared cached copy it points
at is overwritten. -/
def Heap.writeCached {T : Type} (h : Heap T) (b : Blob) (v : T) : Heap T :=
  fun i => if i = b.vId then v else h i

/-- Embedding of `BlobMutRef::commit` (lib.rs lines 163-171):
`ser_store(&self.path, &*self.v)?` followed by `self.committed = true`.
On a store failure the error is returned and `committed` stays as it was.
Returns (result, committed flag afterwards, filesystem afterwards). -/
def BlobMutRef.commit {T : Type} (c : Codec T) (fault : Option Stage)
    (frag hex : String) (fs : FS) (p : FilePath) (v : T) (committed : Bool) :
    Except Err Unit × Bool × FS :=
  match ser_store c fault frag hex fs p v with
  | (Except.ok _, fs2) => (Except.ok (), true, fs2)
  | (Except.error e, fs2) => (Except.error e, committed, fs2)

/-- Embedding of `Drop for BlobMutRef` (lib.rs lines 150-158): if the view
is not committed, run `commit` and panic (`expect`) on failure.  Returns
the outcome of the drop together with the resulting filesystem. -/
def BlobMutRef.dropRun {T : Type} (c : Codec T) (fault : Option Stage)
    (frag hex : String) (fs : FS) (p : FilePath) (v : T) (committed : Bool) :
    Outcome Unit × FS :=
  if committed then
    (Outcome.ok (), fs)
  else
    match BlobMutRef.commit c fault frag hex fs p v false with
    | (Except.ok _, _, fs2) => (Outcome.ok (), fs2)
    | (Except.error _, _, fs2) =>
      (Outcome.fatal "blobject failed to commit on drop", fs2)

/-- One full write-view lifecycle: an optional explicit `commit` call
(with fault injection `faultC`) followed by the destructor (with fault
injection `faultD`).  Records the number of commit attempts made against
the disk, whether the destructor panicked, and the final filesystem. -/
def writeViewRun {T : Type} (c : Codec T) (explicitCommit : Bool)
    (faultC faultD : Option Stage) (frag hex : String) (fs : FS)
    (p : FilePath) (v : T) : Nat × Bool × FS :=
  let (attempts1, committed1, fs1) :=
    if explicitCommit then
      match BlobMutRef.commit c faultC frag hex fs p v false with
      | (_, committed2, fs2) => (1, committed2, fs2)
    else
      (0, false, fs)
  match BlobMutRef.dropRun c faultD frag hex fs1 p v committed1 with
  | (Outcome.ok _, fs2) => (attempts1 + (if committed1 then 0 else 1), false, fs2)
  | (Outcome.fatal _, fs2) => (attempts1 + 1, true, fs2)

/-- The events of a `BlobMutRef` teardown.  Rust runs `Drop::drop` (where
the implicit commit lives) first, then drops the fields in declaration
order — `v: RwLockWriteGuard` before `flock: DirtyFlockExclusive`
(lib.rs lines 114-122, flagged there with the comment `NB: Lock drop
order`). -/
inductive TdEvent
  | commitDisk
  | dropBorrow
  | dropFlock
deriving DecidableEq

/-- The teardown sequence of a `BlobMutRef`: the implicit commit (only
when not yet committed), then release of the internal mutable borrow,
then release of the exclusive lock session. -/
def teardownEvents (committed : Bool) : List TdEvent :=
  (if committed then [] else [TdEvent.commitDisk]) ++
    [TdEvent.dropBorrow, TdEvent.dropFlock]

/-- A snapshot during teardown: the filesystem, whether the internal
mutable borrow of the cached copy is still held, and whether the
exclusive lock session is still held. -/
structure TdState where
  fs : FS
  borrowHeld : Bool
  lockHeld : Bool

/-- Effect of one teardown event on a snapshot.  The commit is a
successful `ser_store` of the committed value `v` against `p`. -/
def tdStep {T : Type} (c : Codec T) (hex : String) (p : FilePath) (v : T)
    (s : TdState) : TdEvent → TdState
  | TdEvent.commitDisk =>
    { s with fs := (ser_store c none "" hex s.fs p v).2 }
  | TdEvent.dropBorrow => { s with borrowHeld := false }
  | TdEvent.dropFlock => { s with lockHeld := false }

/-- All snapshots reached while processing a teardown event list,
including the state after the last event. -/
def tdTrace {T : Type} (c : Codec T) (hex : String) (p : FilePath) (v : T)
    (s : TdState) : List TdEvent → List TdState
  | [] => [s]
  | e :: es => s :: tdTrace c hex p v (tdStep c hex p v s e) es

/-- File-level operations, for tracing which calls touch the filesystem. -/
inductive FileOp
  | readF (p : FilePath)
  | createF (p : FilePath)
  | writeF (p : FilePath) (content : String)
  | renameF (src dst : FilePath)

/-- Effect of one file operation on the filesystem; reads change nothing. -/
def FileOp.apply (fs : FS) : FileOp → FS
  | FileOp.readF _ => fs
  | FileOp.createF p => fs.update p (some "")
  | FileOp.writeF p s => fs.update p (some s)
  | FileOp.renameF src dst => fs.rename src dst

/-- Run a list of file operations left to right. -/
def applyOps (fs : FS) (ops : List FileOp) : FS :=
  ops.foldl FileOp.apply fs

/-- The file operations performed by `AtomBlob::new` (lib.rs lines 36-56):
the body only calls `ser_load`, which does a single read-only
`File::open` of the backing path.  (`DirtyFlock::new` belongs to the
external lock collaborator and touches only the sibling lock file.) -/
def newOps (p : FilePath) : List FileOp :=
  [FileOp.readF p]

/-- The file operations performed by a successful `ser_store` of `v`
against `p` (lib.rs lines 195-218): create the temporary file, write the
full encoding to it, rename it onto the target. -/
def storeOps {T : Type} (c : Codec T) (hex : String) (p : FilePath)
    (v : T) : List FileOp :=
  [FileOp.createF (tmpPath p hex),
   FileOp.writeF (tmpPath p hex) (c.encode v),
   FileOp.renameF (tmpPath p hex) p]

/-- A concrete codec for witnesses: a natural number is encoded in unary
as a string of x characters; decoding rejects any other content. -/
def natCodec : Codec Nat :=
  { encode := fun n => String.mk (List.replicate n 'x')
    decode := fun s =>
      if s.data.all (fun ch => ch = 'x') then Except.ok s.data.length
      else Except.error "not unary" }

/-- A concrete backing path for witnesses. -/
def pJson : FilePath := ⟨"blob", "json"⟩

/-- An empty filesystem. -/
def fsEmpty : FS := fun _ => none

/-- A filesystem whose backing file decodes to 2 under `natCodec`. -/
def fsGood : FS := fun q => if q = pJson then some "xx" else none

/-- A filesystem whose backing file fails to decode under `natCodec`. -/
def fsBad : FS := fun q => if q = pJson then some "zz" else none

theorem ser_store_ok {T : Type} (c : Codec T) (frag hex : String) (fs : FS)
    (p : FilePath) (v : T) (hp : p.dotFree) :
    (ser_store c none frag hex fs p v).1 = Except.ok () ∧
    (ser_store c none frag hex fs p v).2 p = some (c.encode v) ∧
    (ser_store c none frag hex fs p v).2 (tmpPath p hex) = none ∧
    (∀ q, q ≠ p → q ≠ tmpPath p hex →
      (ser_store c none frag hex fs p v).2 q = fs q) := by
  have hne : p ≠ tmpPath p hex := Ne.symm (tmpPath_ne p hex hp)
  refine ⟨rfl, ?_, ?_, ?_⟩
  · simp [ser_store, FS.rename, FS.update, hne]
  · simp [ser_store, FS.rename, FS.update]
  · intro q hqp hqt
    simp [ser_store, FS.rename, FS.update, hqp, hqt]

theorem ser_store_fault {T : Type} (c : Codec T) (stage : Stage)
    (frag hex : String) (fs : FS) (p : FilePath) (v : T) (hp : p.dotFree) :
    (ser_store c (some stage) frag hex fs p v).1 =
      Except.error (Err.storeError stage) ∧
    (ser_store c (some stage) frag hex fs p v).2 p = fs p := by
  have hne : p ≠ tmpPath p hex := Ne.symm (tmpPath_ne p hex hp)
  cases stage <;> simp [ser_store, FS.update, hne]

/-- C1: the claim states that when the lock collaborator fails to acquire
the exclusive lock, `get_mut` returns a recoverable `LockError` `Err` to
the caller.  The code instead unwraps the acquisition with
`.expect("flock")` and panics (lib.rs line 77), while the sibling `get`
propagates the same failure recoverably with `?` (line 59).  This theorem
evaluates both functions at a failing lock acquisition, exhibiting the
divergence: `get_mut` aborts, `get` returns `Err`. -/
theorem C1_get_mut_lock_failure_panics :
    AtomBlob.get_mut natCodec 0 pJson (Except.error ()) fsEmpty 7
      = Outcome.fatal "flock" ∧
    AtomBlob.get natCodec 0 pJson (Except.error ()) fsEmpty 7
      = (Except.error Err.lockError, 7, false) :=
  ⟨rfl, rfl⟩

/-- C2: `AtomBlob::new` initializes the cached copy from the backing file
when it exists and decodes, from the default when the file is absent, and
fails with a `DecodeError` (returning no handle) when the file exists but
does not decode. -/
theorem C2_open_initialization {T : Type} (c : Codec T) (dflt : T) (fs : FS)
    (p : FilePath) :
    (∀ s v, fs p = some s → c.decode s = Except.ok v →
      AtomBlob.new c dflt fs p = Except.ok (v, p.withExtension "flock")) ∧
    (fs p = none →
      AtomBlob.new c dflt fs p = Except.ok (dflt, p.withExtension "flock")) ∧
    (∀ s e, fs p = some s → c.decode s = Except.error e →
      AtomBlob.new c dflt fs p = Except.error Err.decodeError) := by
  refine ⟨?_, ?_, ?_⟩
  · intro s v hs hd; simp [AtomBlob.new, ser_load, hs, hd]
  · intro hs; simp [AtomBlob.new, ser_load, hs]
  · intro s e hs hd; simp [AtomBlob.new, ser_load, hs, hd]

theorem C2_open_initialization_witness :
    AtomBlob.new natCodec 0 fsGood pJson
      = Except.ok (2, pJson.withExtension "flock") ∧
    AtomBlob.new natCodec 0 fsEmpty pJson
      = Except.ok (0, pJson.withExtension "flock") ∧
    AtomBlob.new natCodec 0 fsBad pJson = Except.error Err.decodeError :=
  ⟨(C2_open_initialization natCodec 0 fsGood pJson).1 "xx" 2 rfl rfl,
   (C2_open_initialization natCodec 0 fsEmpty pJson).2.1 rfl,
   (C2_open_initialization natCodec 0 fsBad pJson).2.2 "zz" "not unary"
     rfl rfl⟩

/-- C3: for every value round-tripped by the codec, a successful
`ser_store` followed by `ser_load` on the same path yields exactly the
stored value: `load(store(v)) = Some(Ok(v))`. -/
theorem C3_store_load_roundtrip {T : Type} (c : Codec T) (frag hex : String)
    (fs : FS) (p : FilePath) (v : T) (hp : p.dotFree)
    (hrt : c.decode (c.encode v) = Except.ok v) :
    (ser_store c none frag hex fs p v).1 = Except.ok () ∧
    ser_load c (ser_store c none frag hex fs p v).2 p
      = some (Except.ok v) := by
  obtain ⟨h1, h2, -, -⟩ := ser_store_ok c frag hex fs p v hp
  refine ⟨h1, ?_⟩
  simp [ser_load, h2, hrt]

theorem C3_store_load_roundtrip_witness :
    (ser_store natCodec none "" "0a1b2c3d" fsEmpty pJson 2).1
      = Except.ok () ∧
    ser_load natCodec (ser_store natCodec none "" "0a1b2c3d" fsEmpty pJson 2).2
      pJson = some (Except.ok 2) :=
  C3_store_load_roundtrip natCodec "" "0a1b2c3d" fsEmpty pJson 2
    (by decide) rfl

/-- C4: `ser_store` stages the encoding in a distinct temporary sibling
and renames it onto the target only after a full write: a failure at any
stage (create temp, encode, flush, replace) is reported with that stage
and leaves the content at the target path (or its absence) exactly as it
was, and a successful store leaves the complete encoding at the target
with the temporary gone. -/
theorem C4_store_atomicity {T : Type} (c : Codec T) (frag hex : String)
    (fs : FS) (p : FilePath) (v : T) (hp : p.dotFree) :
    tmpPath p hex ≠ p ∧
    (∀ stage,
      (ser_store c (some stage) frag hex fs p v).1 =
        Except.error (Err.storeError stage) ∧
      (ser_store c (some stage) frag hex fs p v).2 p = fs p) ∧
    (ser_store c none frag hex fs p v).2 p = some (c.encode v) ∧
    (ser_store c none frag hex fs p v).2 (tmpPath p hex) = none := by
  refine ⟨tmpPath_ne p hex hp,
    fun stage => ser_store_fault c stage frag hex fs p v hp, ?_, ?_⟩
  · exact (ser_store_ok c frag hex fs p v hp).2.1
  · exact (ser_store_ok c frag hex fs p v hp).2.2.1

theorem C4_store_atomicity_witness :
    tmpPath pJson "0a1b2c3d" ≠ pJson ∧
    (ser_store natCodec (some Stage.flushStage) "par" "0a1b2c3d" fsGood
      pJson 3).2 pJson = fsGood pJson ∧
    (ser_store natCodec none "" "0a1b2c3d" fsGood pJson 3).2 pJson
      = some (natCodec.encode 3) :=
  ⟨(C4_store_atomicity natCodec "par" "0a1b2c3d" fsGood pJson 3
      (by decide)).1,
   ((C4_store_atomicity natCodec "par" "0a1b2c3d" fsGood pJson 3
      (by decide)).2.1 Stage.flushStage).2,
   (C4_store_atomicity natCodec "" "0a1b2c3d" fsGood pJson 3
      (by decide)).2.2.1⟩

/-- C5: when a `get` or `get_mut` acquisition reports `Dirty`, the cached
copy is reloaded from disk before the view is returned — it becomes the
decoded on-disk value when the backing file decodes, the default when the
file is missing, and the call returns an error (leaving the cached copy
alone) when the file exists but fails to decode; when the acquisition
reports `Clean`, no reload is performed and the cached copy is unchanged.
Results are (view result, cached copy afterwards, whether a disk reload
was performed). -/
theorem C5_dirty_reload_clean_noop {T : Type} (c : Codec T) (dflt : T)
    (p : FilePath) (fs : FS) (cached : T) :
    (∀ s v, fs p = some s → c.decode s = Except.ok v →
      AtomBlob.get c dflt p (Except.ok FlockState.Dirty) fs cached
        = (Except.ok v, v, true) ∧
      AtomBlob.get_mut c dflt p (Except.ok FlockState.Dirty) fs cached
        = Outcome.ok (Except.ok v, v, true)) ∧
    (fs p = none →
      AtomBlob.get c dflt p (Except.ok FlockState.Dirty) fs cached
        = (Except.ok dflt, dflt, true) ∧
      AtomBlob.get_mut c dflt p (Except.ok FlockState.Dirty) fs cached
        = Outcome.ok (Except.ok dflt, dflt, true)) ∧
    (∀ s e, fs p = some s → c.decode s = Except.error e →
      AtomBlob.get c dflt p (Except.ok FlockState.Dirty) fs cached
        = (Except.error Err.decodeError, cached, true) ∧
      AtomBlob.get_mut c dflt p (Except.ok FlockState.Dirty) fs cached
        = Outcome.ok (Except.error Err.decodeError, cached, true)) ∧
    (AtomBlob.get c dflt p (Except.ok FlockState.Clean) fs cached
        = (Except.ok cached, cached, false) ∧
      AtomBlob.get_mut c dflt p (Except.ok FlockState.Clean) fs cached
        = Outcome.ok (Except.ok cached, cached, false)) := by
  refine ⟨?_, ?_, ?_, ?_⟩
  · intro s v hs hd
    constructor <;>
      simp [AtomBlob.get, AtomBlob.get_mut, dirtyReload, ser_load, hs, hd]
  · intro hs
    constructor <;>
      simp [AtomBlob.get, AtomBlob.get_mut, dirtyReload, ser_load, hs]
  · intro s e hs hd
    constructor <;>
      simp [AtomBlob.get, AtomBlob.get_mut, dirtyReload, ser_load, hs, hd]
  · constructor <;> simp [AtomBlob.get, AtomBlob.get_mut]

theorem C5_dirty_reload_clean_noop_witness :
    AtomBlob.get natCodec 0 pJson (Except.ok FlockState.Dirty) fsGood 7
      = (Except.ok 2, 2, true) ∧
    AtomBlob.get_mut natCodec 0 pJson (Except.ok FlockState.Dirty) fsEmpty 7
      = Outcome.ok (Except.ok 0, 0, true) ∧
    AtomBlob.get natCodec 0 pJson (Except.ok FlockState.Dirty) fsBad 7
      = (Except.error Err.decodeError, 7, true) ∧
    AtomBlob.get_mut natCodec 0 pJson (Except.ok FlockState.Clean) fsBad 7
      = Outcome.ok (Except.ok 7, 7, false) :=
  ⟨((C5_dirty_reload_clean_noop natCodec 0 pJson fsGood 7).1 "xx" 2
      rfl rfl).1,
   ((C5_dirty_reload_clean_noop natCodec 0 pJson fsEmpty 7).2.1 rfl).2,
   ((C5_dirty_reload_clean_noop natCodec 0 pJson fsBad 7).2.2.1 "zz"
      "not unary" rfl rfl).1,
   (C5_dirty_reload_clean_noop natCodec 0 pJson fsBad 7).2.2.2.2⟩

/-- C9: when a `Dirty` acquisition reloads and the backing file exists but
fails to decode, both `get` and `get_mut` return an error and the cached
copy afterwards is exactly the previously cached value — the failed reload
never clobbers it, because `*val = newval?` unwraps (and returns) the
error before any assignment happens. -/
theorem C9_failed_reload_preserves_cached {T : Type} (c : Codec T)
    (dflt : T) (p : FilePath) (fs : FS) (cached : T) (s e : String)
    (hs : fs p = some s) (hd : c.decode s = Except.error e) :
    AtomBlob.get c dflt p (Except.ok FlockState.Dirty) fs cached
      = (Except.error Err.decodeError, cached, true) ∧
    AtomBlob.get_mut c dflt p (Except.ok FlockState.Dirty) fs cached
      = Outcome.ok (Except.error Err.decodeError, cached, true) := by
  constructor <;>
    simp [AtomBlob.get, AtomBlob.get_mut, dirtyReload, ser_load, hs, hd]

theorem C9_failed_reload_preserves_cached_witness :
    AtomBlob.get natCodec 0 pJson (Except.ok FlockState.Dirty) fsBad 9
      = (Except.error Err.decodeError, 9, true) ∧
    AtomBlob.get_mut natCodec 0 pJson (Except.ok FlockState.Dirty) fsBad 9
      = Outcome.ok (Except.error Err.decodeError, 9, true) :=
  C9_failed_reload_preserves_cached natCodec 0 pJson fsBad 9 "zz"
    "not unary" rfl rfl

theorem ser_store_fst_ok {T : Type} (c : Codec T) (frag hex : String)
    (fs : FS) (p : FilePath) (v : T) :
    (ser_store c none frag hex fs p v).1 = Except.ok () := rfl

theorem ser_store_fst_fault {T : Type} (c : Codec T) (stage : Stage)
    (frag hex : String) (fs : FS) (p : FilePath) (v : T) :
    (ser_store c (some stage) frag hex fs p v).1 =
      Except.error (Err.storeError stage) := by
  cases stage <;> rfl

/-- C6 counterexample: the claim promises exactly one commit attempt per
Write View acquisition.  But `BlobMutRef::commit` sets `committed = true`
only after `ser_store` succeeds, so a failed explicit commit leaves the
view not committed and the destructor performs a second commit attempt.
Concretely: an explicit commit whose flush stage fails, followed by the
drop, makes two attempts, not one. -/
theorem C6_two_attempts_after_failed_explicit_commit :
    (writeViewRun natCodec true (some Stage.flushStage) none "" "0a1b2c3d"
      fsEmpty pJson 2).1 = 2 ∧
    ¬ (writeViewRun natCodec true (some Stage.flushStage) none "" "0a1b2c3d"
      fsEmpty pJson 2).1 = 1 := by
  constructor
  · rfl
  · intro h
    exact absurd h (by decide)

/-- C6 amended: a Write View performs exactly one commit attempt whenever
no explicit commit is made or the explicit commit succeeds (a failed
explicit commit leaves the view uncommitted, so destruction then makes a
second, implicit attempt); an implicit commit that fails during
destruction panics, so it is fatal to the caller and cannot be silently
swallowed; and a view already marked committed performs no further commit
on destruction. -/
theorem C6_commit_protocol {T : Type} (c : Codec T)
    (faultC faultD : Option Stage) (frag hex : String) (fs : FS)
    (p : FilePath) (v : T) :
    (writeViewRun c false faultC faultD frag hex fs p v).1 = 1 ∧
    (faultC = none →
      (writeViewRun c true faultC faultD frag hex fs p v).1 = 1 ∧
      (writeViewRun c true faultC faultD frag hex fs p v).2.1 = false) ∧
    (∀ stage, faultD = some stage →
      (writeViewRun c false faultC faultD frag hex fs p v).2.1 = true) ∧
    BlobMutRef.dropRun c faultD frag hex fs p v true = (Outcome.ok (), fs)
    := by
  refine ⟨?_, ?_, ?_, rfl⟩
  · cases faultD with
    | none => rfl
    | some stage => cases stage <;> rfl
  · intro h
    subst h
    cases faultD with
    | none => exact ⟨rfl, rfl⟩
    | some stage => cases stage <;> exact ⟨rfl, rfl⟩
  · intro stage h
    subst h
    cases stage <;> rfl

theorem C6_commit_protocol_witness :
    (writeViewRun natCodec false none (some Stage.replace) "" "aa" fsEmpty
      pJson 1).1 = 1 ∧
    (writeViewRun natCodec true none none "" "aa" fsEmpty pJson 1).1 = 1 ∧
    (writeViewRun natCodec false none (some Stage.replace) "" "aa" fsEmpty
      pJson 1).2.1 = true ∧
    BlobMutRef.dropRun natCodec none "" "aa" fsEmpty pJson 1 true
      = (Outcome.ok (), fsEmpty) :=
  ⟨(C6_commit_protocol natCodec none (some Stage.replace) "" "aa" fsEmpty
      pJson 1).1,
   ((C6_commit_protocol natCodec none none "" "aa" fsEmpty pJson 1).2.1
      rfl).1,
   (C6_commit_protocol natCodec none (some Stage.replace) "" "aa" fsEmpty
      pJson 1).2.2.1 Stage.replace rfl,
   (C6_commit_protocol natCodec none none "" "aa" fsEmpty pJson 1).2.2.2⟩

/-- C7: during a `BlobMutRef` teardown the destructor body (the implicit
commit) runs first, then the fields drop in declaration order — the
internal mutable borrow (`v`) before the exclusive lock session
(`flock`).  Hence the commit to disk happens while both are still held,
the borrow is released before the lock, and in no state of the teardown
is the exclusive lock released while the backing file does not yet hold
the committed encoding. -/
theorem C7_release_order {T : Type} (c : Codec T) (hex : String)
    (p : FilePath) (v : T) (fs : FS) (hp : p.dotFree) :
    teardownEvents false
      = [TdEvent.commitDisk, TdEvent.dropBorrow, TdEvent.dropFlock] ∧
    (∀ s ∈ tdTrace c hex p v ⟨fs, true, true⟩ (teardownEvents false),
      (s.lockHeld = false → s.borrowHeld = false) ∧
      (s.lockHeld = false → s.fs p = some (c.encode v))) := by
  refine ⟨rfl, ?_⟩
  intro s hs
  have hdisk := (ser_store_ok c "" hex fs p v hp).2.1
  simp only [teardownEvents, tdTrace, tdStep, if_neg, List.mem_cons,
    List.not_mem_nil, or_false] at hs
  rcases hs with rfl | rfl | rfl | rfl
  · exact ⟨(fun h => nomatch h), (fun h => nomatch h)⟩
  · exact ⟨(fun h => nomatch h), (fun h => nomatch h)⟩
  · exact ⟨(fun h => nomatch h), (fun h => nomatch h)⟩
  · exact ⟨fun _ => rfl, fun _ => hdisk⟩

theorem C7_release_order_witness :
    ({ fs := (ser_store natCodec none "" "aa" fsEmpty pJson 2).2,
       borrowHeld := false, lockHeld := false } : TdState).fs pJson
      = some (natCodec.encode 2) :=
  ((C7_release_order natCodec "aa" pJson 2 fsEmpty (by decide)).2
    { fs := (ser_store natCodec none "" "aa" fsEmpty pJson 2).2,
      borrowHeld := false, lockHeld := false }
    (by simp [teardownEvents, tdTrace, tdStep])).2 rfl

/-- C8: `AtomBlob::clone` hands back a handle whose cached copy and
backing path are the very same shared (`Arc`) objects — a value committed
through either handle is read back through the other — while its lock
session is a fresh one, opened against the same lock-file path. -/
theorem C8_clone_sharing {T : Type} (heap : Heap T) (b : Blob) (s : Nat)
    (v w : T) (hs : s ≠ b.sessionId) :
    (b.clone s).vId = b.vId ∧
    (b.clone s).pathId = b.pathId ∧
    (b.clone s).flockPath = b.flockPath ∧
    (b.clone s).sessionId = s ∧
    (b.clone s).sessionId ≠ b.sessionId ∧
    Heap.readCached (Heap.writeCached heap b v) (b.clone s) = v ∧
    Heap.readCached (Heap.writeCached heap (b.clone s) w) b = w := by
  refine ⟨rfl, rfl, rfl, rfl, hs, ?_, ?_⟩ <;>
    simp [Blob.clone, Heap.readCached, Heap.writeCached]

theorem C8_clone_sharing_witness :
    (Blob.clone ⟨0, 1, 2, pJson.withExtension "flock"⟩ 5).vId = 0 ∧
    Heap.readCached
      (Heap.writeCached (fun _ => (0 : Nat))
        ⟨0, 1, 2, pJson.withExtension "flock"⟩ 3)
      (Blob.clone ⟨0, 1, 2, pJson.withExtension "flock"⟩ 5) = 3 :=
  ⟨(C8_clone_sharing (fun _ => (0 : Nat))
      ⟨0, 1, 2, pJson.withExtension "flock"⟩ 5 3 4 (by decide)).1,
   (C8_clone_sharing (fun _ => (0 : Nat))
      ⟨0, 1, 2, pJson.withExtension "flock"⟩ 5 3 4 (by decide)).2.2.2.2.2.1⟩

/-- C10: the constructor performs no write to the filesystem — its only
file operation is the read done by `ser_load`, so the filesystem after
`AtomBlob::new` is exactly the one before, and a missing backing file
stays missing; the encoding (of the default or any other value) first
reaches disk when a Write View commit runs `ser_store`. -/
theorem C10_open_no_write {T : Type} (c : Codec T) (hex : String) (fs : FS)
    (p : FilePath) (v : T) (hp : p.dotFree) :
    applyOps fs (newOps p) = fs ∧
    (fs p = none → applyOps fs (newOps p) p = none) ∧
    applyOps fs (storeOps c hex p v) p = some (c.encode v) := by
  have hne : p ≠ tmpPath p hex := Ne.symm (tmpPath_ne p hex hp)
  refine ⟨rfl, fun h => h, ?_⟩
  simp [applyOps, storeOps, FileOp.apply, FS.update, FS.rename, hne]

theorem C10_open_no_write_witness :
    applyOps fsEmpty (newOps pJson) = fsEmpty ∧
    applyOps fsEmpty (newOps pJson) pJson = none ∧
    applyOps fsEmpty (storeOps natCodec "aa" pJson 0) pJson
      = some (natCodec.encode 0) :=
  ⟨(C10_open_no_write natCodec "aa" fsEmpty pJson 0 (by decide)).1,
   (C10_open_no_write natCodec "aa" fsEmpty pJson 0 (by decide)).2.1 rfl,
   (C10_open_no_write natCodec "aa" fsEmpty pJson 0 (by decide)).2.2⟩
